import Mathlib

/-!
Verification development for the conversational car-sales engine
(catalog resolver, pricing calculator, quote dialogue controller,
knowledge retriever, guardrails, intent classifier).

Each TypeScript service function used by the specification's claims is
embedded below as an executable Lean definition over explicit stores
(monetary values as `ℚ`, machine lists as `List`), and the claims are
settled as theorems about those definitions.
-/

/-! ## Similarity matcher (src nlp.utils: `calculateSimilarity`)

The TypeScript computes the classic Levenshtein dynamic-programming
matrix (unit insert/delete cost, substitution cost 0 on equal chars,
else 1) and returns `1 - distance / max(len1, len2)`, with early
returns: both empty gives 1, exactly one empty gives 0.  We reuse
Mathlib's `levenshtein` with `Levenshtein.defaultCost`, which is the
same recurrence the matrix memoises. -/

/-- Levenshtein edit distance between two character lists, unit costs. -/
def levChar (a b : List Char) : ℕ :=
  levenshtein Levenshtein.defaultCost a b

/-- Embedding of `calculateSimilarity(str1, str2)`: normalized Levenshtein
similarity in `[0,1]` with the source's early returns for empty inputs. -/
def calculateSimilarity (s1 s2 : String) : ℚ :=
  if s1.length = 0 ∧ s2.length = 0 then 1
  else if s1.length = 0 ∨ s2.length = 0 then 0
  else 1 - (levChar s1.toList s2.toList : ℚ) / (max s1.length s2.length : ℕ)

/-! ## String helpers shared by the embedded services

JS `String.prototype.includes`, lower-casing, and whitespace handling
are embedded over `List Char`. -/

/-- JS `hay.includes(needle)` on character lists. -/
def hasSub (hay needle : List Char) : Bool :=
  needle.isPrefixOf hay ||
    match hay with
    | [] => false
    | _ :: t => hasSub t needle

/-- JS `hay.includes(needle)` on strings. -/
def strIncludes (hay needle : String) : Bool :=
  hasSub hay.toList needle.toList

/-- JS `toLowerCase()` (ASCII), defined structurally over the character
list so that concrete evaluations reduce in the kernel. -/
def jsToLower (s : String) : String :=
  (s.toList.map Char.toLower).asString

/-! ## Input sanitizer (guardrails.service: `sanitizeInput`)

The TypeScript applies, in order: `replace(/[<>]/g, '')`,
`replace(/javascript:/gi, '')`, `slice(0, 500)`.  The second step is a
single left-to-right pass removing non-overlapping case-insensitive
occurrences of `javascript:`, exactly as a global regex replace does. -/

/-- The removed protocol pattern, as lower-case characters. -/
def jsProto : List Char := "javascript:".toList

/-- One left-to-right pass removing case-insensitive occurrences of
`javascript:`, with explicit fuel (always called with fuel = length,
which every step strictly decreases, so the fuel never runs out). -/
def stripJsProtoAux : ℕ → List Char → List Char
  | 0, l => l
  | _ + 1, [] => []
  | fuel + 1, c :: cs =>
      if ((c :: cs).take 11).map Char.toLower = jsProto then
        stripJsProtoAux fuel (cs.drop 10)
      else
        c :: stripJsProtoAux fuel cs

/-- Embedding of `replace(/javascript:/gi, '')`. -/
def stripJsProto (l : List Char) : List Char :=
  stripJsProtoAux l.length l

/-- Embedding of `sanitizeInput(input)`: drop `<`/`>`, strip the
`javascript:` protocol, cap at 500 characters. -/
def sanitizeInput (input : String) : String :=
  ⟨(stripJsProto (input.toList.filter fun c => !(c = '<' || c = '>'))).take 500⟩

/-! ## Catalog data model

`CarVariant`/`CarModel` mirror the Prisma rows used by the services:
a variant's `srp` is its decimal price (embedded as `ℚ`), a model owns
an ordered list of variants (store order).  Media rows and free-text
columns not consulted by any claim are omitted. -/

structure CarVariant where
  id : ℕ
  name : String
  srp : ℚ
  deriving DecidableEq

structure CarModel where
  name : String
  variants : List CarVariant
  deriving DecidableEq

/-- All variants in table order, each paired with its model's name
(the services' queries over the variant table with `include model`). -/
def allVariants (catalog : List CarModel) : List (CarVariant × String) :=
  catalog.flatMap fun m => m.variants.map fun v => (v, m.name)

/-- Embedding of `prisma.carVariant.findUnique(where: id)` with model. -/
def findVariantById (catalog : List CarModel) (vid : ℕ) : Option (CarVariant × String) :=
  (allVariants catalog).find? fun p => p.1.id = vid

/-! ## Price validation guardrail (guardrails.service: `validatePrice`)

The TypeScript looks the variant up, computes the absolute difference
and the percent difference from the stored SRP, allows when the percent
difference is at most 5, and returns an object whose fields differ per
branch: the allow branch carries official price, claimed price, absolute
difference and an accuracy flag, the deny branch additionally carries the
percent difference.  Fields absent from a branch are embedded as `none`;
the deny branch's human-readable `message` string is presentation only
and is not modelled. -/

structure ValidatePriceResult where
  allowed : Bool
  reason : String
  officialPrice : Option ℚ
  claimedPrice : Option ℚ
  difference : Option ℚ
  percentDifference : Option ℚ
  isAccurate : Option Bool
  deriving DecidableEq

/-- Embedding of `validatePrice(variantId, claimedPrice)`. -/
def validatePrice (catalog : List CarModel) (variantId : ℕ) (claimedPrice : ℚ) :
    ValidatePriceResult :=
  match findVariantById catalog variantId with
  | none => ⟨false, "Variant not found.", none, none, none, none, none⟩
  | some (v, _) =>
      let srp := v.srp
      let difference := |claimedPrice - srp|
      let percentDiff := difference / srp * 100
      if percentDiff ≤ 5 then
        ⟨true, "Price within acceptable range.",
          some srp, some claimedPrice, some difference, none, some true⟩
      else
        ⟨false, "Price variance too high.",
          some srp, some claimedPrice, some difference, some percentDiff, some false⟩

/-! ## Knowledge retriever (rag.service: `searchRelevantFAQs`)

The TypeScript lowercases the query, splits it on whitespace runs
(JS `split(/\s+/)`, which keeps a leading/trailing empty token), scores
every FAQ row by weighted keyword/question/answer matches, discards
zero scores, sorts descending by score (JS `Array.prototype.sort` is
stable) and truncates to `limit`. -/

/-- ASCII whitespace recognised by the JS `\s` class. -/
def jsIsWs (c : Char) : Bool :=
  c = ' ' || c = '\t' || c = '\n' || c = '\r' || c = '\x0b' || c = '\x0c'

/-- Splitter behind JS `split(/\s+/)`: tokens between whitespace runs,
with an empty token at an edge that starts or ends with whitespace.
Fuel is always the list length, which every step strictly decreases. -/
def splitWsAux : ℕ → List Char → List Char → List (List Char)
  | 0, l, acc => [acc.reverse ++ l]
  | _ + 1, [], acc => [acc.reverse]
  | fuel + 1, c :: rest, acc =>
      if jsIsWs c then
        acc.reverse :: splitWsAux fuel (rest.dropWhile jsIsWs) []
      else
        splitWsAux fuel rest (c :: acc)

/-- JS `s.split(/\s+/)` on a string, as a list of token strings. -/
def jsSplitWs (s : String) : List String :=
  (splitWsAux s.toList.length s.toList []).map List.asString

/-- An FAQ row: question, answer, category, keyword list. -/
structure FAQ where
  question : String
  answer : String
  category : String
  keywords : List String
  deriving DecidableEq

/-- Score contribution of a single query word against one FAQ row, as in
the body of the scoring loop: +3 for an exact keyword match, else +2 for
a keyword-substring match, plus 1.5 when the question text contains the
word and 0.5 when the answer text does. -/
def faqWordScore (faq : FAQ) (word : String) : ℚ :=
  (if faq.keywords.any fun k => jsToLower k = word then 3
   else if faq.keywords.any fun k => strIncludes (jsToLower k) word then 2
   else 0) +
  (if strIncludes (jsToLower faq.question) word then 1.5 else 0) +
  (if strIncludes (jsToLower faq.answer) word then 0.5 else 0)

/-- Embedding of the scoring loop of `searchRelevantFAQs`: the score
accumulated over all query words. -/
def faqScore (query : String) (faq : FAQ) : ℚ :=
  (jsSplitWs (jsToLower query)).foldl (fun score w => score + faqWordScore faq w) 0

/-- Embedding of `searchRelevantFAQs(query, limit)`: score, discard
zero scores, stable-sort descending, truncate. -/
def searchRelevantFAQs (faqs : List FAQ) (query : String) (limit : ℕ) : List FAQ :=
  ((((faqs.map fun f => (f, faqScore query f)).filter fun p => 0 < p.2).insertionSort
      fun a b => b.2 ≤ a.2).take limit).map Prod.fst

/-- Rephrasing of the claim's scoring description: the plain sum over
query words of the per-word weights. -/
def specFaqScore (query : String) (faq : FAQ) : ℚ :=
  ((jsSplitWs (jsToLower query)).map (faqWordScore faq)).sum

instance : IsTotal (FAQ × ℚ) (fun a b => b.2 ≤ a.2) :=
  ⟨fun a b => le_total b.2 a.2⟩

instance : IsTrans (FAQ × ℚ) (fun a b => b.2 ≤ a.2) :=
  ⟨fun _ _ _ hab hbc => le_trans hbc hab⟩

/-- Concrete FAQ row whose keyword list holds the query word exactly and
whose question text also contains it. -/
def faqWarranty : FAQ :=
  ⟨"What is the warranty period?", "All vehicles include coverage.",
    "Warranty", ["warranty"]⟩

/-- Concrete FAQ row matched only through its answer text. -/
def faqOther : FAQ :=
  ⟨"Do you offer test drives?", "Yes, and the warranty brochure is included.",
    "Test", ["drives"]⟩

/-! ## Pricing calculator (pricing.service: `calculatePrice`)

The TypeScript looks up the variant (null when absent), fetches the
most recently updated price rule of the region (fees/promos default to
empty objects when the rule is absent), applies JS falsy-or defaults to
the three named fees (so an explicit 0 also triggers the default),
collects the remaining fee entries verbatim, and optionally computes a
simple-interest financing schedule.  Fee/promo JSON maps are embedded
as association lists in insertion order. -/

structure Promos where
  discount : Option ℚ
  freebies : Option (List String)
  deriving DecidableEq

structure PriceRule where
  region : String
  fees : List (String × ℚ)
  promos : Promos
  updatedAt : ℕ
  deriving DecidableEq

/-- Embedding of `getPriceRules(region)`: first rule for the region in
descending `updatedAt` order (stable, so ties keep the earliest row). -/
def getPriceRules (rules : List PriceRule) (region : String) : Option PriceRule :=
  (rules.filter fun r => r.region = region).foldl
    (fun best r =>
      match best with
      | none => some r
      | some b => if b.updatedAt < r.updatedAt then some r else best)
    none

/-- JS falsy-or on an optional number: `undefined` and `0` both fall
back to the default. -/
def jsOrQ (v : Option ℚ) (d : ℚ) : ℚ :=
  match v with
  | none => d
  | some x => if x = 0 then d else x

/-- Property lookup in a JSON fee map embedded as an association list. -/
def feesLookup (fees : List (String × ℚ)) (key : String) : Option ℚ :=
  (fees.find? fun kv => kv.1 = key).map Prod.snd

structure PricingInput where
  variantId : ℕ
  region : Option String
  addons : Option (List (String × ℚ))
  downPaymentPercent : Option ℚ
  financingMonths : Option ℕ
  interestRate : Option ℚ
  deriving DecidableEq

structure FeesBreakdown where
  registration : ℚ
  chattel : ℚ
  insurance : ℚ
  others : List (String × ℚ)
  total : ℚ
  deriving DecidableEq

structure PromosBreakdown where
  discount : ℚ
  freebies : List String
  deriving DecidableEq

structure PricingBreakdown where
  srp : ℚ
  addons : ℚ
  fees : FeesBreakdown
  promos : PromosBreakdown
  subtotal : ℚ
  total : ℚ
  deriving DecidableEq

structure Financing where
  downPayment : ℚ
  downPaymentPercent : ℚ
  amountFinanced : ℚ
  monthlyAmortization : ℚ
  months : ℕ
  interestRate : ℚ
  totalInterest : ℚ
  totalPayable : ℚ
  deriving DecidableEq

structure QuoteCalculation where
  breakdown : PricingBreakdown
  cashTotal : ℚ
  financing : Option Financing
  deriving DecidableEq

/-- The pure computation of `calculatePrice` once the region rule has
been resolved (`rule? = none` embeds the JS `priceRule?.fees || {}` /
`priceRule?.promos || {}` defaults). -/
def calcWithRule (catalog : List CarModel) (rule? : Option PriceRule)
    (input : PricingInput) : Option QuoteCalculation :=
  match findVariantById catalog input.variantId with
  | none => none
  | some (v, _) =>
      let fees := (rule?.map PriceRule.fees).getD []
      let srp := v.srp
      let addonsTotal := ((input.addons.getD []).map Prod.snd).sum
      let registrationFee := jsOrQ (feesLookup fees "registration") 5000
      let chattelFee := jsOrQ (feesLookup fees "chattel") 15000
      let insuranceFee := jsOrQ (feesLookup fees "insurance") (srp * 0.025)
      let otherFees := fees.filter fun kv =>
        !(kv.1 = "registration" || kv.1 = "chattel" || kv.1 = "insurance")
      let feesTotal := registrationFee + chattelFee + insuranceFee +
        (otherFees.map Prod.snd).sum
      let discount := jsOrQ (rule?.bind fun r => r.promos.discount) 0
      let freebies := (rule?.bind fun r => r.promos.freebies).getD []
      let subtotal := srp + addonsTotal + feesTotal
      let total := subtotal - discount
      let financing : Option Financing :=
        match input.downPaymentPercent, input.financingMonths with
        | some dp, some m =>
            if m ≠ 0 then
              let downPayment := total * (dp / 100)
              let amountFinanced := total - downPayment
              let rate := jsOrQ input.interestRate 5.5
              let totalInterest := amountFinanced * (rate / 100) * ((m : ℚ) / 12)
              let monthlyAmortization := (amountFinanced + totalInterest) / (m : ℚ)
              some ⟨downPayment, dp, amountFinanced, monthlyAmortization, m, rate,
                totalInterest, downPayment + monthlyAmortization * (m : ℚ)⟩
            else none
        | _, _ => none
      some ⟨⟨srp, addonsTotal,
        ⟨registrationFee, chattelFee, insuranceFee, otherFees, feesTotal⟩,
        ⟨discount, freebies⟩, subtotal, total⟩, total, financing⟩

/-- Embedding of `calculatePrice(input)`: variant lookup, then region
rule lookup (JS default parameter `region = 'NCR'` applies only when
the input region is absent), then the pure computation. -/
def calculatePrice (catalog : List CarModel) (rules : List PriceRule)
    (input : PricingInput) : Option QuoteCalculation :=
  calcWithRule catalog (getPriceRules rules (input.region.getD "NCR")) input

/-- The seeded catalog rows (prisma seed script). -/
def seedCatalog : List CarModel :=
  [⟨"Xpander", [⟨1, "GLX M/T", 1068000⟩, ⟨2, "GLS A/T", 1198000⟩]⟩,
   ⟨"Montero Sport", [⟨3, "GLX 2WD M/T", 1568000⟩, ⟨4, "Black Series", 2100000⟩]⟩]

/-- The seeded NCR price rule: note `insurance` stored as 0, meaning
"compute as percentage of price". -/
def seedPriceRule : PriceRule :=
  ⟨"NCR",
    [("registration", 5000), ("chattel", 15000), ("insurance", 0),
      ("documentation", 2000)],
    ⟨some 10000, some ["Window Tint", "Floor Matting", "Seat Covers"]⟩, 0⟩

/-- The seeded region-pricing store. -/
def seedRules : List PriceRule := [seedPriceRule]

/-! ## Catalog resolver (catalog.service: `searchVariantByName`)

The TypeScript tries four tiers in order: (1) case-insensitive
substring of the full query against variant names; (2) only when the
single-space split of the lowercased query has at least two tokens,
token split into model hint (first token) and variant hint (rest),
returning the matched variant or otherwise the model's first stored
variant; (3) fuzzy scan of every (variant, model, "model variant",
"modelvariant") candidate keeping the first global maximum of
`calculateSimilarity` at or above 0.6; (4) first variant whose name
contains the first token. -/

/-- JS `s.split(sep)` for a single-character separator (no run
collapsing: consecutive separators produce empty tokens). -/
def splitCharAux (sep : Char) : List Char → List Char → List (List Char)
  | [], acc => [acc.reverse]
  | c :: rest, acc =>
      if c = sep then acc.reverse :: splitCharAux sep rest []
      else splitCharAux sep rest (c :: acc)

/-- JS `s.split(sep)` on a string. -/
def jsSplitChar (sep : Char) (s : String) : List String :=
  (splitCharAux sep s.toList []).map List.asString

/-- JS `words.join(' ')`. -/
def joinSpace : List String → String
  | [] => ""
  | [s] => s
  | s :: rest => s ++ " " ++ joinSpace rest

/-- Prisma `contains, mode: 'insensitive'`. -/
def containsInsensitive (hay needle : String) : Bool :=
  hasSub (jsToLower hay).toList (jsToLower needle).toList

/-- Tier 1: first variant (table order) whose name contains the whole
query, case-insensitively. -/
def searchTier1 (catalog : List CarModel) (query : String) :
    Option (CarVariant × String) :=
  (allVariants catalog).find? fun p => containsInsensitive p.1.name query

/-- Tier 2: the token-split tier, entered only for two or more tokens.
`words` is the single-space split of the lowercased query. -/
def searchTier2 (catalog : List CarModel) (words : List String) :
    Option (CarVariant × String) :=
  if 2 ≤ words.length then
    match catalog.find? (fun m => containsInsensitive m.name (words.headD "")) with
    | some m =>
        match m.variants with
        | [] => none
        | v0 :: _ =>
            match m.variants.find? (fun v =>
                strIncludes (jsToLower v.name) (joinSpace (words.drop 1))) with
            | some v => some (v, m.name)
            | none => some (v0, m.name)
    | none => none
  else none

/-- Fuzzy candidates of tier 3 in scan order: for each model and
variant, the lowercased variant name, model name, "model variant" and
its whitespace-free form. -/
def fuzzyCandidates (catalog : List CarModel) : List (String × CarVariant × String) :=
  catalog.flatMap fun m => m.variants.flatMap fun v =>
    [(jsToLower v.name, v, m.name),
     (jsToLower m.name, v, m.name),
     (jsToLower (m.name ++ " " ++ v.name), v, m.name),
     (((jsToLower (m.name ++ " " ++ v.name)).toList.filter
         fun c => !(jsIsWs c)).asString, v, m.name)]

/-- Tier 3: keep the first candidate achieving the strict running
maximum similarity at or above the 0.6 threshold. -/
def searchTier3 (catalog : List CarModel) (queryLower : String) :
    Option (CarVariant × String) :=
  ((fuzzyCandidates catalog).foldl
    (fun best cand =>
      let score := calculateSimilarity queryLower cand.1
      let bestScore := match best with | none => 0 | some b => b.1
      if score > bestScore ∧ score ≥ 0.6 then some (score, cand.2) else best)
    none).map Prod.snd

/-- Tier 4: first variant (table order) whose name contains the first
token, case-insensitively. -/
def searchTier4 (catalog : List CarModel) (words : List String) :
    Option (CarVariant × String) :=
  (allVariants catalog).find? fun p => containsInsensitive p.1.name (words.headD "")

/-- Embedding of `searchVariantByName(query)`: the four tiers in order. -/
def searchVariantByName (catalog : List CarModel) (query : String) :
    Option (CarVariant × String) :=
  match searchTier1 catalog query with
  | some p => some p
  | none =>
      let words := jsSplitChar ' ' (jsToLower query)
      match searchTier2 catalog words with
      | some p => some p
      | none =>
          match searchTier3 catalog (jsToLower query) with
          | some p => some p
          | none => searchTier4 catalog words

/-- Catalog used by the C1 counterexample: Xpander's first stored
variant is the more expensive one. -/
def c1Catalog : List CarModel :=
  [⟨"Xpander", [⟨1, "GLS A/T", 1198000⟩, ⟨2, "GLX M/T", 1068000⟩]⟩]

/-! ## Quote dialogue controller (quote-flow.service)

The per-user state machine.  Sessions, quotes and the catalog/pricing
stores are carried in an explicit `Store`; each turn handler returns the
updated store and the response state.  The human-readable reply text and
quick-reply buttons are presentation only and are not modelled.  Each
turn additionally returns a ghost `trace`: the successive values taken
by the dialogue `step` during the turn (the step read from the session
followed by each assignment the TypeScript makes to `state.step`, with
`generateQuote`'s terminal reset to IDLE recorded from the state object
it returns); the trace adds no behaviour and exists only to state the
claimed step sequence. -/

inductive QuoteStep
  | IDLE
  | ASK_VARIANT
  | ASK_PAYMENT_TYPE
  | ASK_DOWN_PAYMENT
  | ASK_FINANCING_TERM
  | CONFIRM_DETAILS
  | GENERATE_QUOTE
  deriving DecidableEq

structure QuoteContext where
  variantId : Option ℕ
  variantName : Option String
  paymentType : Option String
  downPaymentPercent : Option ℚ
  financingMonths : Option ℕ
  region : Option String
  deriving DecidableEq

/-- The empty context blob `{}`. -/
def emptyContext : QuoteContext := ⟨none, none, none, none, none, none⟩

structure QuoteSessionState where
  step : QuoteStep
  context : QuoteContext
  deriving DecidableEq

structure QuoteRecord where
  userId : String
  variantId : ℕ
  details : QuoteCalculation
  status : String
  deriving DecidableEq

structure Store where
  catalog : List CarModel
  rules : List PriceRule
  sessions : List (String × QuoteSessionState)
  quotes : List QuoteRecord
  deriving DecidableEq

structure QuoteFlowResponse where
  state : QuoteSessionState
  deriving DecidableEq

/-- `getSession`: the stored state, or the IDLE default. -/
def getSession (store : Store) (userId : String) : QuoteSessionState :=
  match store.sessions.find? fun p => p.1 = userId with
  | some p => p.2
  | none => ⟨.IDLE, emptyContext⟩

/-- `updateSession`: upsert by user id. -/
def updateSession (store : Store) (userId : String) (st : QuoteSessionState) :
    Store :=
  { store with
    sessions :=
      if store.sessions.any fun p => p.1 = userId then
        store.sessions.map fun p => if p.1 = userId then (userId, st) else p
      else
        store.sessions ++ [(userId, st)] }

/-- `clearSession`: delete by user id, tolerant of a missing session. -/
def clearSession (store : Store) (userId : String) : Store :=
  { store with sessions := store.sessions.filter fun p => p.1 ≠ userId }

/-- JS falsy-or on an optional string (empty string is falsy). -/
def jsOrS (v : Option String) (d : String) : String :=
  match v with
  | none => d
  | some s => if s = "" then d else s

/-- JS falsy-or on an optional natural (0 is falsy). -/
def jsOrNat (v : Option ℕ) (d : ℕ) : ℕ :=
  match v with
  | none => d
  | some n => if n = 0 then d else n

/-- JS `trim()` (ASCII whitespace). -/
def jsTrim (s : String) : String :=
  (((s.toList.dropWhile jsIsWs).reverse.dropWhile jsIsWs).reverse).asString

/-- JS single-character replace with the empty string: removes the
first occurrence only. -/
def removeFirstChar : List Char → Char → List Char
  | [], _ => []
  | c :: rest, target =>
      if c = target then rest else removeFirstChar rest target |>.cons c

/-- JS `parseInt` on the embedded inputs: optional sign and leading
decimal digits after leading whitespace, `none` for NaN. -/
def parseIntJs (s : String) : Option ℤ :=
  let t := s.toList.dropWhile jsIsWs
  let (sign, rest) :=
    match t with
    | '-' :: r => ((-1 : ℤ), r)
    | '+' :: r => ((1 : ℤ), r)
    | r => ((1 : ℤ), r)
  let digits := rest.takeWhile Char.isDigit
  if digits.isEmpty then none
  else some (sign * (digits.foldl (fun acc c => acc * 10 + (c.toNat - 48)) 0 : ℕ))

/-- `generateQuote(userId, state)`: price the selected variant, persist
the quote, clear the session.  The JS guard `if (!state.context.variantId)`
is also taken for variant id 0 (zero is falsy), yielding the error reply
without pricing or persisting.  Returns the new store, the response
state, and the ghost trace of step values it produces. -/
def generateQuote (store : Store) (userId : String) (state : QuoteSessionState) :
    Store × QuoteSessionState × List QuoteStep :=
  match state.context.variantId with
  | none => (store, ⟨.IDLE, emptyContext⟩, [.IDLE])
  | some vid =>
      if vid = 0 then (store, ⟨.IDLE, emptyContext⟩, [.IDLE])
      else
      let input : PricingInput :=
        { variantId := vid
          region := some (jsOrS state.context.region "NCR")
          addons := none
          downPaymentPercent :=
            if state.context.paymentType = some "financing" then
              some (jsOrQ state.context.downPaymentPercent 20)
            else none
          financingMonths :=
            if state.context.paymentType = some "financing" then
              some (jsOrNat state.context.financingMonths 60)
            else none
          interestRate := none }
      match calculatePrice store.catalog store.rules input with
      | none => (store, state, [])
      | some calcResult =>
          let store1 := { store with
            quotes := store.quotes ++ [⟨userId, vid, calcResult, "GENERATED"⟩] }
          (clearSession store1 userId, ⟨.IDLE, emptyContext⟩, [.IDLE])

/-- `startQuoteFlow(userId, variantQuery)`: begin at ASK_VARIANT, and
jump straight to ASK_PAYMENT_TYPE when the hint already resolves.  The
JS guard `if (variantQuery)` is falsy for the empty string, so an empty
hint skips resolution and takes the common ASK_VARIANT tail. -/
def startQuoteFlow (store : Store) (userId : String) (variantQuery : Option String) :
    Store × QuoteSessionState × List QuoteStep :=
  let fallthrough :=
    let st : QuoteSessionState := ⟨.ASK_VARIANT, emptyContext⟩
    (updateSession store userId st, st, [.ASK_VARIANT])
  match variantQuery with
  | some q =>
      if q = "" then fallthrough
      else
        match searchVariantByName store.catalog q with
        | some (v, mname) =>
            let st : QuoteSessionState := ⟨.ASK_PAYMENT_TYPE,
              { emptyContext with
                variantId := some v.id
                variantName := some (mname ++ " " ++ v.name) }⟩
            (updateSession store userId st, st, [.ASK_VARIANT, .ASK_PAYMENT_TYPE])
        | none => fallthrough
  | none => fallthrough

/-- `handleAskVariant`: advance to ASK_PAYMENT_TYPE on a resolved
variant, stay (without a session write) otherwise. -/
def handleAskVariant (store : Store) (userId message : String)
    (state : QuoteSessionState) : Store × QuoteSessionState × List QuoteStep :=
  match searchVariantByName store.catalog message with
  | none => (store, state, [])
  | some (v, mname) =>
      let st : QuoteSessionState := ⟨.ASK_PAYMENT_TYPE,
        { state.context with
          variantId := some v.id
          variantName := some (mname ++ " " ++ v.name) }⟩
      (updateSession store userId st, st, [.ASK_PAYMENT_TYPE])

/-- `handleAskPaymentType`: cash goes straight to quote generation,
financing proceeds to the down-payment question, anything else stays. -/
def handleAskPaymentType (store : Store) (userId message : String)
    (state : QuoteSessionState) : Store × QuoteSessionState × List QuoteStep :=
  let lower := jsToLower message
  if lower ∈ (["cash", "1", "full", "one", "payment_cash"] : List String) then
    let st : QuoteSessionState := ⟨.GENERATE_QUOTE,
      { state.context with paymentType := some "cash" }⟩
    let store1 := updateSession store userId st
    let r := generateQuote store1 userId st
    (r.1, r.2.1, .GENERATE_QUOTE :: r.2.2)
  else if lower ∈ (["financing", "finance", "2", "monthly", "installment", "two",
      "payment_financing"] : List String) then
    let st : QuoteSessionState := ⟨.ASK_DOWN_PAYMENT,
      { state.context with paymentType := some "financing" }⟩
    (updateSession store userId st, st, [.ASK_DOWN_PAYMENT])
  else
    (store, state, [])

/-- `handleAskDownPayment`: accept a percent in [0,100] (typed or via a
DOWN_PAYMENT_ quick-reply payload), stay otherwise. -/
def handleAskDownPayment (store : Store) (userId message : String)
    (state : QuoteSessionState) : Store × QuoteSessionState × List QuoteStep :=
  let lower := jsToLower message
  let percentage : Option ℤ :=
    if "down_payment_".toList.isPrefixOf lower.toList then
      parseIntJs (lower.toList.drop 13).asString
    else
      parseIntJs (jsTrim ((removeFirstChar message.toList '%').asString))
  match percentage with
  | none => (store, state, [])
  | some p =>
      if p < 0 ∨ 100 < p then (store, state, [])
      else
        let st : QuoteSessionState := ⟨.ASK_FINANCING_TERM,
          { state.context with downPaymentPercent := some (p : ℚ) }⟩
        (updateSession store userId st, st, [.ASK_FINANCING_TERM])

/-- `handleAskFinancingTerm`: accept a term in {12,24,36,48,60} (typed
or via a TERM_ payload) and generate the quote, stay otherwise. -/
def handleAskFinancingTerm (store : Store) (userId message : String)
    (state : QuoteSessionState) : Store × QuoteSessionState × List QuoteStep :=
  let lower := jsToLower message
  let months : Option ℤ :=
    if "term_".toList.isPrefixOf lower.toList then
      parseIntJs (lower.toList.drop 5).asString
    else
      parseIntJs (jsTrim message)
  match months with
  | none => (store, state, [])
  | some mz =>
      if mz ∈ ([12, 24, 36, 48, 60] : List ℤ) then
        let st : QuoteSessionState := ⟨.GENERATE_QUOTE,
          { state.context with financingMonths := some mz.toNat }⟩
        let store1 := updateSession store userId st
        let r := generateQuote store1 userId st
        (r.1, r.2.1, .GENERATE_QUOTE :: r.2.2)
      else (store, state, [])

/-- One turn of `processMessage(userId, message)`: read the session,
honour cancellation, dispatch on the current step (the switch default,
covering IDLE and CONFIRM_DETAILS, starts the flow with the message as
variant hint).  The trace opens with the step read from the session. -/
def processMessage (store : Store) (userId message : String) :
    Store × QuoteSessionState × List QuoteStep :=
  let state := getSession store userId
  let lower := jsTrim (jsToLower message)
  if lower ∈ (["cancel", "stop", "exit"] : List String) then
    (clearSession store userId, ⟨.IDLE, emptyContext⟩, [state.step, .IDLE])
  else
    let r :=
      match state.step with
      | .ASK_VARIANT => handleAskVariant store userId message state
      | .ASK_PAYMENT_TYPE => handleAskPaymentType store userId message state
      | .ASK_DOWN_PAYMENT => handleAskDownPayment store userId message state
      | .ASK_FINANCING_TERM => handleAskFinancingTerm store userId message state
      | .GENERATE_QUOTE => generateQuote store userId state
      | _ => startQuoteFlow store userId (some message)
    (r.1, r.2.1, state.step :: r.2.2)

/-! ## Intent classifier (llm.service: `detectIntent` and
`fallbackIntentDetection`)

`detectIntent` first calls the external language model and parses its
response as JSON; the call outcome is embedded as an oracle value
(`LLMOutcome.failed` covers call failure, timeout, and a response that
does not parse), since network behaviour is outside the program text.
On failure it returns `fallbackIntentDetection`, a fixed chain of
regex/keyword rules.  Each regex is embedded by its matching semantics
on the lowercased message: the anchored greeting alternation is
membership in the six literals, bare keyword alternations are substring
tests, and `a.*b` is `seqDot` (an occurrence of `a` followed by an
occurrence of `b` with no newline between, as JS `.` does not match
newlines). -/

structure IntentEntities where
  model : Option String
  variant : Option String
  paymentType : Option String
  deriving DecidableEq

structure IntentDetectionResult where
  intent : String
  confidence : ℚ
  entities : Option IntentEntities
  deriving DecidableEq

/-- Matching of the regex fragment `p.*q` (without flags, `.` does not
cross a newline): some occurrence of `p` is followed by an occurrence
of `q` separated only by non-newline characters. -/
def seqDot (p q : List Char) : List Char → Bool
  | [] => false
  | c :: t =>
      (p.isPrefixOf (c :: t) &&
        hasSub (((c :: t).drop p.length).takeWhile fun ch => ch ≠ '\n') q) ||
      seqDot p q t

/-- The anchored greeting regex: full match against one of the six
alternatives. -/
def greetingCond (lower : String) : Bool :=
  lower ∈ (["hi", "hello", "hey", "good morning", "good afternoon", "start"] :
    List String)

/-- The show-models regex `(model|cars|available|what.*(car|vehicle)|show.*car)`. -/
def modelsCond (lower : String) : Bool :=
  strIncludes lower "model" || strIncludes lower "cars" ||
    strIncludes lower "available" ||
    seqDot "what".toList "car".toList lower.toList ||
    seqDot "what".toList "vehicle".toList lower.toList ||
    seqDot "show".toList "car".toList lower.toList

/-- The show-specs regex `(spec|specs|specification|engine|feature)`. -/
def specsCond (lower : String) : Bool :=
  strIncludes lower "spec" || strIncludes lower "specs" ||
    strIncludes lower "specification" || strIncludes lower "engine" ||
    strIncludes lower "feature"

/-- The show-photos regex
`(photo|photos|picture|pictures|image|images|see.*car)`. -/
def photosCond (lower : String) : Bool :=
  strIncludes lower "photo" || strIncludes lower "photos" ||
    strIncludes lower "picture" || strIncludes lower "pictures" ||
    strIncludes lower "image" || strIncludes lower "images" ||
    seqDot "see".toList "car".toList lower.toList

/-- The quote regex `(price|cost|how much|quote|pricing|discount|financing)`. -/
def quoteCond (lower : String) : Bool :=
  strIncludes lower "price" || strIncludes lower "cost" ||
    strIncludes lower "how much" || strIncludes lower "quote" ||
    strIncludes lower "pricing" || strIncludes lower "discount" ||
    strIncludes lower "financing"

/-- The known-model-name list scanned by the last fallback rule. -/
def knownModels : List String :=
  ["xpander", "montero", "mirage", "lancer", "strada", "triton"]

/-- Embedding of `fallbackIntentDetection(message)`: the source's
if-chain in order, each rule with its fixed confidence. -/
def fallbackIntentDetection (message : String) : IntentDetectionResult :=
  let lower := jsToLower message
  if greetingCond lower then ⟨"greeting", 0.9, none⟩
  else if modelsCond lower then ⟨"show_models", 0.85, none⟩
  else if specsCond lower then ⟨"show_specs", 0.85, none⟩
  else if photosCond lower then ⟨"show_photos", 0.85, none⟩
  else if quoteCond lower then ⟨"get_quote", 0.85, none⟩
  else
    match knownModels.find? fun m => strIncludes lower m with
    | some foundModel => ⟨"general_question", 0.6, some ⟨some foundModel, none, none⟩⟩
    | none => ⟨"unknown", 0.5, none⟩

/-- A parsed JSON classification from the language model. -/
structure ParsedIntent where
  intent : Option String
  confidence : Option ℚ
  entities : Option IntentEntities
  deriving DecidableEq

/-- Oracle for the external call: `failed` covers call failure, timeout
and an unparseable response. -/
inductive LLMOutcome
  | ok (parsed : ParsedIntent)
  | failed
  deriving DecidableEq

/-- Embedding of `detectIntent(message)` over the call oracle. -/
def detectIntent (outcome : LLMOutcome) (message : String) : IntentDetectionResult :=
  match outcome with
  | .ok r =>
      ⟨jsOrS r.intent "unknown", jsOrQ r.confidence 0.5,
        some (r.entities.getD ⟨none, none, none⟩)⟩
  | .failed => fallbackIntentDetection message

/-- Spec-side rule: a matcher returning the fixed result when it fires. -/
def boolRule (cond : String → Bool) (res : IntentDetectionResult)
    (lower : String) : Option IntentDetectionResult :=
  if cond lower then some res else none

/-- Spec-side rule for the known-model-name detection. -/
def modelNameRule (lower : String) : Option IntentDetectionResult :=
  match knownModels.find? fun m => strIncludes lower m with
  | some foundModel => some ⟨"general_question", 0.6, some ⟨some foundModel, none, none⟩⟩
  | none => none

/-- The claim's fixed priority order of fallback rules. -/
def intentRuleList : List (String → Option IntentDetectionResult) :=
  [boolRule greetingCond ⟨"greeting", 0.9, none⟩,
   boolRule modelsCond ⟨"show_models", 0.85, none⟩,
   boolRule specsCond ⟨"show_specs", 0.85, none⟩,
   boolRule photosCond ⟨"show_photos", 0.85, none⟩,
   boolRule quoteCond ⟨"get_quote", 0.85, none⟩,
   modelNameRule]

/-- First-match-wins evaluation of an ordered rule list, defaulting to
the unknown intent with confidence 0.5. -/
def firstRuleHit : List (String → Option IntentDetectionResult) → String →
    IntentDetectionResult
  | [], _ => ⟨"unknown", 0.5, none⟩
  | r :: rest, lower =>
      match r lower with
      | some res => res
      | none => firstRuleHit rest lower


/-! ## Claim theorems and supporting lemmas -/

theorem levChar_nil_left (b : List Char) : levChar [] b = b.length := by
  induction b with
  | nil => simp [levChar]
  | cons y ys ih =>
      simp only [levChar, levenshtein_nil_cons] at *
      simp [ih, Nat.add_comm]

theorem levChar_nil_right (a : List Char) : levChar a [] = a.length := by
  induction a with
  | nil => simp [levChar]
  | cons x xs ih =>
      simp only [levChar, levenshtein_cons_nil] at *
      simp [ih, Nat.add_comm]

theorem levChar_self (a : List Char) : levChar a a = 0 := by
  induction a with
  | nil => simp [levChar]
  | cons x xs ih =>
      have h1 : levChar (x :: xs) (x :: xs) ≤
          (Levenshtein.defaultCost.substitute x x) + levChar xs xs := by
        simp only [levChar, levenshtein_cons_cons]
        exact le_trans (min_le_right _ _) (min_le_right _ _)
      have h2 : (Levenshtein.defaultCost.substitute x x) + levChar xs xs = 0 := by
        simp [Levenshtein.defaultCost, ih]
      exact Nat.le_zero.mp (h2 ▸ h1)

theorem levChar_comm (a b : List Char) : levChar a b = levChar b a := by
  induction a generalizing b with
  | nil => rw [levChar_nil_left, levChar_nil_right]
  | cons x xs ih =>
      induction b with
      | nil => rw [levChar_nil_left, levChar_nil_right]
      | cons y ys ih2 =>
          simp only [levChar, levenshtein_cons_cons] at *
          have hsub : (Levenshtein.defaultCost.substitute x y : ℕ) =
              Levenshtein.defaultCost.substitute y x := by
            simp [Levenshtein.defaultCost, eq_comm]
          have hdel : (Levenshtein.defaultCost.delete x : ℕ) =
              Levenshtein.defaultCost.insert x := by
            simp [Levenshtein.defaultCost]
          have hdel' : (Levenshtein.defaultCost.delete y : ℕ) =
              Levenshtein.defaultCost.insert y := by
            simp [Levenshtein.defaultCost]
          rw [ih (y :: ys), ih2, ih ys, hsub, hdel, ← hdel']
          rw [min_left_comm]

theorem levChar_le_max (a b : List Char) :
    levChar a b ≤ max a.length b.length := by
  induction a generalizing b with
  | nil => rw [levChar_nil_left]; exact le_max_right _ _
  | cons x xs ih =>
      cases b with
      | nil => rw [levChar_nil_right]; exact le_max_left _ _
      | cons y ys =>
          have h1 : levChar (x :: xs) (y :: ys) ≤
              (Levenshtein.defaultCost.substitute x y) + levChar xs ys := by
            simp only [levChar, levenshtein_cons_cons]
            exact le_trans (min_le_right _ _) (min_le_right _ _)
          have h2 : (Levenshtein.defaultCost.substitute x y : ℕ) ≤ 1 := by
            simp only [Levenshtein.defaultCost]
            split <;> omega
          calc levChar (x :: xs) (y :: ys)
              ≤ Levenshtein.defaultCost.substitute x y + levChar xs ys := h1
            _ ≤ 1 + max xs.length ys.length := Nat.add_le_add h2 (ih ys)
            _ = max (x :: xs).length (y :: ys).length := by
                simp [List.length_cons, Nat.succ_max_succ, Nat.add_comm]

theorem string_length_toList (s : String) : s.toList.length = s.length := rfl

theorem calculateSimilarity_eq_formula (a b : String) :
    calculateSimilarity a b =
      1 - (levChar a.toList b.toList : ℚ) / (max a.length b.length : ℕ) := by
  unfold calculateSimilarity
  split
  · next h =>
      obtain ⟨h1, h2⟩ := h
      have la : a.toList.length = 0 := by rw [string_length_toList]; exact h1
      have lb : b.toList.length = 0 := by rw [string_length_toList]; exact h2
      rw [List.length_eq_zero] at la lb
      rw [la, lb]
      simp [levChar, h1, h2]
  · split
    · next hne h =>
        rcases h with h | h
        · have la : a.toList.length = 0 := by rw [string_length_toList]; exact h
          rw [List.length_eq_zero] at la
          have hb0 : (b.length : ℚ) ≠ 0 := by
            have : b.length ≠ 0 := fun hb => hne ⟨h, hb⟩
            exact_mod_cast this
          rw [la, levChar_nil_left, string_length_toList, h]
          simp only [Nat.max_eq_right (Nat.zero_le _)]
          rw [div_self hb0]
          ring
        · have lb : b.toList.length = 0 := by rw [string_length_toList]; exact h
          rw [List.length_eq_zero] at lb
          have ha0 : (a.length : ℚ) ≠ 0 := by
            have : a.length ≠ 0 := fun ha => hne ⟨ha, h⟩
            exact_mod_cast this
          rw [lb, levChar_nil_right, string_length_toList, h]
          simp only [Nat.max_eq_left (Nat.zero_le _)]
          rw [div_self ha0]
          ring
    · rfl

/-- C9: `calculateSimilarity` is symmetric, scores identical strings
(including two empty strings) as 1, scores a pair with exactly one empty
argument as 0, and always returns `1 - levenshtein distance / longer
length`, a value lying in `[0, 1]`. -/
theorem c9_similarity_properties (a b : String) :
    calculateSimilarity a b = calculateSimilarity b a ∧
    calculateSimilarity a a = 1 ∧
    ((a = "" ∧ b ≠ "") ∨ (a ≠ "" ∧ b = "") → calculateSimilarity a b = 0) ∧
    0 ≤ calculateSimilarity a b ∧ calculateSimilarity a b ≤ 1 ∧
    calculateSimilarity a b =
      1 - (levChar a.toList b.toList : ℚ) / (max a.length b.length : ℕ) := by
  have hbound : ∀ x y : String, 0 ≤ calculateSimilarity x y ∧
      calculateSimilarity x y ≤ 1 := by
    intro x y
    rw [calculateSimilarity_eq_formula]
    by_cases hm : max x.length y.length = 0
    · rw [hm]
      norm_num
    · have hmpos : (0 : ℚ) < (max x.length y.length : ℕ) := by
        exact_mod_cast Nat.pos_of_ne_zero hm
      have hle : (levChar x.toList y.toList : ℚ) ≤ (max x.length y.length : ℕ) := by
        have := levChar_le_max x.toList y.toList
        rw [string_length_toList, string_length_toList] at this
        exact_mod_cast this
      constructor
      · have : (levChar x.toList y.toList : ℚ) / (max x.length y.length : ℕ) ≤ 1 :=
          (div_le_one hmpos).mpr hle
        linarith
      · have h0 : (0 : ℚ) ≤ (levChar x.toList y.toList : ℚ) / (max x.length y.length : ℕ) :=
          div_nonneg (by positivity) (le_of_lt hmpos)
        linarith
  refine ⟨?_, ?_, ?_, (hbound a b).1, (hbound a b).2, calculateSimilarity_eq_formula a b⟩
  · rw [calculateSimilarity_eq_formula, calculateSimilarity_eq_formula,
      levChar_comm, Nat.max_comm]
  · rw [calculateSimilarity_eq_formula, levChar_self]
    simp
  · intro h
    rcases h with ⟨ha, hb⟩ | ⟨ha, hb⟩
    · have hb' : b.length ≠ 0 := fun h0 => hb (String.ext (List.length_eq_zero.mp h0))
      unfold calculateSimilarity
      rw [ha]
      simp [hb']
    · have ha' : a.length ≠ 0 := fun h0 => ha (String.ext (List.length_eq_zero.mp h0))
      unfold calculateSimilarity
      rw [hb]
      simp [ha']

/-- Witness for C9: instantiates the one-empty-argument clause at
`("", "x")` and the identical-strings clause at `"ab"`. -/
theorem c9_similarity_properties_witness :
    calculateSimilarity "" "x" = 0 ∧ calculateSimilarity "ab" "ab" = 1 :=
  ⟨(c9_similarity_properties "" "x").2.2.1 (Or.inl ⟨rfl, by decide⟩),
   (c9_similarity_properties "ab" "ab").2.1⟩

theorem hasSub_nil (needle : List Char) :
    hasSub [] needle = needle.isEmpty := by
  cases needle <;> simp [hasSub, List.isPrefixOf, List.isEmpty]

theorem stripJsProtoAux_subset (fuel : ℕ) (l : List Char) :
    ∀ c ∈ stripJsProtoAux fuel l, c ∈ l := by
  induction fuel generalizing l with
  | zero => intro c hc; simp only [stripJsProtoAux] at hc; exact hc
  | succ n ih =>
      cases l with
      | nil => intro c hc; simp only [stripJsProtoAux] at hc; exact absurd hc (List.not_mem_nil c)
      | cons a t =>
          intro c hc
          unfold stripJsProtoAux at hc
          split at hc
          · exact List.mem_cons_of_mem a (List.drop_subset 10 t (ih _ c hc))
          · rcases List.mem_cons.mp hc with h | h
            · exact h ▸ List.mem_cons_self a t
            · exact List.mem_cons_of_mem a (ih t c h)

theorem stripJsProto_subset (l : List Char) :
    ∀ c ∈ stripJsProto l, c ∈ l :=
  stripJsProtoAux_subset l.length l

/-- C8 counterexample: sanitizing `jajavascript:vascript:` splices the
two fragments around the removed occurrence into a brand-new
`javascript:`, so the output does contain the script-protocol prefix. -/
theorem c8_sanitize_counterexample :
    sanitizeInput "jajavascript:vascript:" = "javascript:" ∧
    strIncludes (sanitizeInput "jajavascript:vascript:") "javascript:" = true := by
  constructor <;> decide

/-- C8 amended: the sanitizer's output never contains `<` or `>` and is
at most 500 characters long; the `javascript:` pass removes each
non-overlapping occurrence in one sweep but (per the counterexample)
removal can concatenate surrounding text into a new occurrence. -/
theorem c8_sanitize_amended (input : String) :
    (∀ c ∈ (sanitizeInput input).toList, c ≠ '<' ∧ c ≠ '>') ∧
    (sanitizeInput input).length ≤ 500 := by
  constructor
  · intro c hc
    have h1 : c ∈ stripJsProto (input.toList.filter fun c => !(c = '<' || c = '>')) := by
      exact List.take_subset 500 _ hc
    have h2 := stripJsProto_subset _ c h1
    have h3 := List.of_mem_filter h2
    simp only [Bool.not_eq_true', Bool.or_eq_false_iff, decide_eq_false_iff_not] at h3
    exact h3
  · show (List.take 500 _).length ≤ 500
    exact List.length_take_le 500 _

unseal Rat.add Rat.sub Rat.mul Rat.inv Rat.ofScientific in
/-- C6 counterexample: for a variant with stored SRP 100 and claimed
price 100 the check allows, but the allow outcome reports no percent
difference at all (the field only exists on the deny branch), refuting
"in every outcome ... reports ... the percent difference". -/
theorem c6_validate_price_counterexample :
    (validatePrice [⟨"M", [⟨1, "V", 100⟩]⟩] 1 100).allowed = true ∧
    (validatePrice [⟨"M", [⟨1, "V", 100⟩]⟩] 1 100).percentDifference = none := by
  constructor <;> decide

/-- C6 amended: for an existing variant with positive stored SRP the
check denies exactly when the claimed price differs from the SRP by more
than 5 percent; both outcomes report the official price, the claimed
price and the absolute difference, but the percent difference is
reported only in the deny outcome. -/
theorem c6_validate_price_amended (catalog : List CarModel) (vid : ℕ)
    (claimed : ℚ) (v : CarVariant) (mn : String)
    (hfind : findVariantById catalog vid = some (v, mn)) (_hsrp : 0 < v.srp) :
    ((validatePrice catalog vid claimed).allowed = false ↔
      5 < |claimed - v.srp| / v.srp * 100) ∧
    (validatePrice catalog vid claimed).officialPrice = some v.srp ∧
    (validatePrice catalog vid claimed).claimedPrice = some claimed ∧
    (validatePrice catalog vid claimed).difference = some |claimed - v.srp| ∧
    ((validatePrice catalog vid claimed).allowed = false →
      (validatePrice catalog vid claimed).percentDifference =
        some (|claimed - v.srp| / v.srp * 100)) ∧
    ((validatePrice catalog vid claimed).allowed = true →
      (validatePrice catalog vid claimed).percentDifference = none) := by
  unfold validatePrice
  rw [hfind]
  dsimp only
  by_cases h : |claimed - v.srp| / v.srp * 100 ≤ 5
  · rw [if_pos h]
    refine ⟨?_, rfl, rfl, rfl, ?_, fun _ => rfl⟩
    · exact ⟨fun hf => (nomatch hf), fun hgt => absurd h (not_le.mpr hgt)⟩
    · exact fun hf => nomatch hf
  · rw [if_neg h]
    refine ⟨?_, rfl, rfl, rfl, fun _ => rfl, ?_⟩
    · exact ⟨fun _ => not_le.mp h, fun _ => rfl⟩
    · exact fun ht => nomatch ht

/-- Witness for C6's amended theorem: a concrete catalog where a claimed
price 20 percent above the stored SRP 100 is denied with the percent
difference reported. -/
theorem c6_validate_price_amended_witness :
    (validatePrice [⟨"M", [⟨1, "V", 100⟩]⟩] 1 120).allowed = false ∧
    (validatePrice [⟨"M", [⟨1, "V", 100⟩]⟩] 1 120).percentDifference = some 20 := by
  have h := c6_validate_price_amended [⟨"M", [⟨1, "V", 100⟩]⟩] 1 120 ⟨1, "V", 100⟩ "M"
    (by decide) (by norm_num)
  have hgt : (5 : ℚ) < |(120 : ℚ) - 100| / 100 * 100 := by norm_num
  have hfalse := h.1.mpr hgt
  refine ⟨hfalse, ?_⟩
  have := h.2.2.2.2.1 hfalse
  rw [this]
  norm_num

theorem foldl_add_eq_sum (ws : List String) (faq : FAQ) (init : ℚ) :
    ws.foldl (fun score w => score + faqWordScore faq w) init =
      init + (ws.map (faqWordScore faq)).sum := by
  induction ws generalizing init with
  | nil => simp
  | cons w rest ih =>
      simp only [List.foldl_cons, List.map_cons, List.sum_cons, ih]
      ring

theorem faqScore_eq_specFaqScore (query : String) (faq : FAQ) :
    faqScore query faq = specFaqScore query faq := by
  unfold faqScore specFaqScore
  rw [foldl_add_eq_sum]
  ring

theorem insertionSort_ties_stable (l : List (FAQ × ℚ)) (q : ℚ) :
    (l.insertionSort fun a b => b.2 ≤ a.2).filter (fun p => decide (p.2 = q)) =
      l.filter (fun p => decide (p.2 = q)) := by
  have hperm : List.Perm
      ((l.insertionSort fun a b => b.2 ≤ a.2).filter (fun p => decide (p.2 = q)))
      (l.filter (fun p => decide (p.2 = q))) :=
    (List.perm_insertionSort _ l).filter _
  have hpw : (l.filter (fun p => decide (p.2 = q))).Pairwise
      (fun a b : FAQ × ℚ => b.2 ≤ a.2) := by
    apply List.pairwise_of_forall_mem_list
    intro a ha b hb
    have ha2 : a.2 = q := by simpa using (List.mem_filter.mp ha).2
    have hb2 : b.2 = q := by simpa using (List.mem_filter.mp hb).2
    rw [ha2, hb2]
  have hsub : List.Sublist (l.filter (fun p => decide (p.2 = q)))
      (l.insertionSort fun a b => b.2 ≤ a.2) :=
    List.sublist_insertionSort hpw (List.filter_sublist l)
  have hidem : ((l.filter (fun p => decide (p.2 = q))).filter
      (fun p => decide (p.2 = q))) = l.filter (fun p => decide (p.2 = q)) := by
    simp [List.filter_filter]
  have hsub2 : List.Sublist (l.filter (fun p => decide (p.2 = q)))
      ((l.insertionSort fun a b => b.2 ≤ a.2).filter (fun p => decide (p.2 = q))) := by
    have h := hsub.filter (fun p => decide (p.2 = q))
    rwa [hidem] at h
  exact (hsub2.eq_of_length hperm.length_eq.symm).symm

unseal Rat.add Rat.sub Rat.mul Rat.inv Rat.ofScientific in
/-- Concrete evaluation used by C4: the exact-keyword-plus-question row
scores 4.5, the answer-only row 0.5, and the retriever ranks the former
first even though the store lists it second. -/
theorem c4HelperExample :
    searchRelevantFAQs [faqOther, faqWarranty] "warranty" 3 =
        [faqWarranty, faqOther] ∧
      faqScore "warranty" faqWarranty = 4.5 ∧
      faqScore "warranty" faqOther = 0.5 := by
  refine ⟨by decide, by decide, by decide⟩

/-- C4: `searchRelevantFAQs` scores every entry as the claimed sum of
per-word weights (+3 exact keyword, else +2 keyword substring, +1.5
question hit, +0.5 answer hit), discards zero scores, returns a
descending stably-sorted prefix of at most `limit` entries; concretely,
an exact-keyword-plus-question hit scores 4.5 and outranks an
answer-only hit scoring 0.5. -/
theorem c4_faq_retrieval (faqs : List FAQ) (query : String) (limit : ℕ) :
    (∀ f ∈ searchRelevantFAQs faqs query limit, 0 < faqScore query f) ∧
    (searchRelevantFAQs faqs query limit).length ≤ limit ∧
    (∃ S : List (FAQ × ℚ),
      searchRelevantFAQs faqs query limit = (S.take limit).map Prod.fst ∧
      List.Perm S ((faqs.map fun f => (f, faqScore query f)).filter fun p => 0 < p.2) ∧
      S.Sorted (fun a b => b.2 ≤ a.2) ∧
      (∀ q : ℚ, S.filter (fun p => decide (p.2 = q)) =
        ((faqs.map fun f => (f, faqScore query f)).filter fun p => 0 < p.2).filter
          (fun p => decide (p.2 = q)))) ∧
    (∀ f : FAQ, faqScore query f = specFaqScore query f) ∧
    (searchRelevantFAQs [faqOther, faqWarranty] "warranty" 3 =
        [faqWarranty, faqOther] ∧
      faqScore "warranty" faqWarranty = 4.5 ∧
      faqScore "warranty" faqOther = 0.5) := by
  refine ⟨?_, ?_, ?_, fun f => faqScore_eq_specFaqScore query f, c4HelperExample⟩
  · intro f hf
    unfold searchRelevantFAQs at hf
    obtain ⟨p, hp, hpf⟩ := List.mem_map.mp hf
    have h1 : p ∈ ((faqs.map fun f => (f, faqScore query f)).filter fun p => 0 < p.2) :=
      (List.mem_insertionSort _).mp (List.mem_of_mem_take hp)
    have h2 := List.mem_filter.mp h1
    obtain ⟨g, _, hgp⟩ := List.mem_map.mp h2.1
    have hscore : 0 < p.2 := by simpa using h2.2
    subst hpf
    rw [← hgp]
    rw [← hgp] at hscore
    simpa using hscore
  · unfold searchRelevantFAQs
    rw [List.length_map]
    exact List.length_take_le limit _
  · exact ⟨_, rfl, List.perm_insertionSort _ _, List.sorted_insertionSort _ _,
      fun q => insertionSort_ties_stable _ q⟩

/-- C2: with SRP 1,198,000, fee map carrying only registration 5000 and
chattel 15000 (insurance unspecified, so 2.5 percent of SRP = 29,950)
and zero promo discount, the cash total is 1,247,950; with 20 percent
down over 60 months at the default 5.5 percent annual rate the financing
block is down 249,590, financed 998,360, interest 274,549, monthly
exactly 21,215.15, and total payable 249,590 + 21,215.15 × 60. -/
theorem c2_pricing_example (catalog : List CarModel) (rules : List PriceRule)
    (vid : ℕ) (v : CarVariant) (mn : String) (r : PriceRule)
    (hv : findVariantById catalog vid = some (v, mn))
    (hsrp : v.srp = 1198000)
    (hr : getPriceRules rules "NCR" = some r)
    (hfees : r.fees = [("registration", 5000), ("chattel", 15000)])
    (hdisc : r.promos.discount = none ∨ r.promos.discount = some 0) :
    (calculatePrice catalog rules ⟨vid, none, none, none, none, none⟩).map
        (fun c => c.cashTotal) = some 1247950 ∧
    (calculatePrice catalog rules ⟨vid, none, none, some 20, some 60, none⟩).map
        (fun c => c.financing) =
      some (some ⟨249590, 20, 998360, 21215.15, 60, 5.5, 274549,
        249590 + 21215.15 * 60⟩) := by
  constructor
  · show (calcWithRule catalog (getPriceRules rules "NCR")
      ⟨vid, none, none, none, none, none⟩).map (fun c => c.cashTotal) = some 1247950
    rw [hr]
    unfold calcWithRule
    rw [hv]
    simp only [hfees, hsrp, Option.map_some, Option.getD_some, Option.some_bind]
    rcases hdisc with hd | hd <;>
      simp [jsOrQ, feesLookup, List.find?, hd, hfees, hsrp] <;> norm_num
  · show (calcWithRule catalog (getPriceRules rules "NCR")
      ⟨vid, none, none, some 20, some 60, none⟩).map (fun c => c.financing) =
      some (some ⟨249590, 20, 998360, 21215.15, 60, 5.5, 274549,
        249590 + 21215.15 * 60⟩)
    rw [hr]
    unfold calcWithRule
    rw [hv]
    simp only [hfees, hsrp, Option.map_some, Option.getD_some, Option.some_bind]
    rcases hdisc with hd | hd <;>
      simp [jsOrQ, feesLookup, List.find?, hd, hfees, hsrp, Financing.mk.injEq] <;>
        norm_num

/-- Witness for C2: the concrete seeded Xpander GLS A/T configuration. -/
theorem c2_pricing_example_witness :
    (calculatePrice [⟨"Xpander", [⟨1, "GLS A/T", 1198000⟩]⟩]
        [⟨"NCR", [("registration", 5000), ("chattel", 15000)], ⟨none, none⟩, 0⟩]
        ⟨1, none, none, none, none, none⟩).map (fun c => c.cashTotal) =
      some 1247950 :=
  (c2_pricing_example _ _ 1 ⟨1, "GLS A/T", 1198000⟩ "Xpander"
    ⟨"NCR", [("registration", 5000), ("chattel", 15000)], ⟨none, none⟩, 0⟩
    (by decide) rfl (by decide) rfl (Or.inl rfl)).1

/-- C5 counterexample: a region (`"XX"`) with no price rule at all is
not rejected — the calculator still returns a breakdown, using the
built-in fee defaults, refuting the claim's "no price rule in the
region pricing store" half. -/
theorem c5_region_counterexample :
    (calculatePrice [⟨"M", [⟨1, "V", 1000⟩]⟩] []
      ⟨1, some "XX", none, none, none, none⟩).isSome = true := by
  rfl

/-- C5 amended: `calculatePrice` returns `none` exactly when the variant
id is absent from the catalog; a region without a price rule is not
rejected — the computation proceeds with an empty fee/promo map, so the
defaults (registration 5000, chattel 15000, insurance 2.5 percent of
SRP, no other fees, zero discount) apply. -/
theorem c5_not_found_amended (catalog : List CarModel) (rules : List PriceRule)
    (input : PricingInput) :
    (findVariantById catalog input.variantId = none →
      calculatePrice catalog rules input = none) ∧
    (∀ v mn, findVariantById catalog input.variantId = some (v, mn) →
      ∃ c, calculatePrice catalog rules input = some c) ∧
    (∀ v mn, findVariantById catalog input.variantId = some (v, mn) →
      getPriceRules rules (input.region.getD "NCR") = none →
      ∃ c, calculatePrice catalog rules input = some c ∧
        c.breakdown.fees.registration = 5000 ∧
        c.breakdown.fees.chattel = 15000 ∧
        c.breakdown.fees.insurance = v.srp * 0.025 ∧
        c.breakdown.fees.others = [] ∧
        c.breakdown.promos.discount = 0) := by
  refine ⟨?_, ?_, ?_⟩
  · intro h
    unfold calculatePrice calcWithRule
    rw [h]
  · intro v mn h
    unfold calculatePrice calcWithRule
    rw [h]
    exact ⟨_, rfl⟩
  · intro v mn h hrule
    unfold calculatePrice calcWithRule
    rw [h, hrule]
    refine ⟨_, rfl, ?_, ?_, ?_, ?_, ?_⟩ <;> rfl

/-- Witness for C5's amended theorem: missing variant 9 yields `none`;
variant 1 with the ruleless region `"XX"` yields a breakdown with the
default fees. -/
theorem c5_not_found_amended_witness :
    calculatePrice [⟨"M", [⟨1, "V", 1000⟩]⟩] [] ⟨9, none, none, none, none, none⟩ =
      none ∧
    ∃ c, calculatePrice [⟨"M", [⟨1, "V", 1000⟩]⟩] []
        ⟨1, some "XX", none, none, none, none⟩ = some c ∧
      c.breakdown.fees.registration = 5000 ∧
      c.breakdown.fees.chattel = 15000 ∧
      c.breakdown.fees.insurance = (1000 : ℚ) * 0.025 ∧
      c.breakdown.fees.others = [] ∧
      c.breakdown.promos.discount = 0 :=
  ⟨(c5_not_found_amended [⟨"M", [⟨1, "V", 1000⟩]⟩] []
      ⟨9, none, none, none, none, none⟩).1 rfl,
   (c5_not_found_amended [⟨"M", [⟨1, "V", 1000⟩]⟩] []
      ⟨1, some "XX", none, none, none, none⟩).2.2 ⟨1, "V", 1000⟩ "M" rfl rfl⟩

theorem feesLookup_filter_self (fees : List (String × ℚ)) (k : String) :
    feesLookup (fees.filter fun kv => kv.1 ≠ k) k = none := by
  unfold feesLookup
  rw [List.find?_eq_none.mpr]
  · rfl
  · intro kv hkv
    have := List.of_mem_filter hkv
    simp only [decide_not, Bool.not_eq_true', decide_eq_false_iff_not] at this
    simpa using this

theorem feesLookup_filter_ne (fees : List (String × ℚ)) (k key : String)
    (hne : key ≠ k) :
    feesLookup (fees.filter fun kv => kv.1 ≠ k) key = feesLookup fees key := by
  induction fees with
  | nil => rfl
  | cons kv rest ih =>
      by_cases hk : kv.1 = k
      · have h2 : ¬(kv.1 = key) := fun h => hne (h.symm.trans hk)
        simp only [feesLookup, List.filter_cons, List.find?_cons] at *
        simp [hk, h2, Ne.symm hne] at *
        exact ih
      · by_cases h2 : kv.1 = key
        · simp [feesLookup, List.filter_cons, List.find?_cons, hk, h2, hne]
        · simp only [feesLookup, List.filter_cons, List.find?_cons] at *
          simp [hk, h2] at *
          exact ih

theorem jsOr_lookup_erase (fees : List (String × ℚ)) (k : String)
    (h0 : feesLookup fees k = some 0 ∨ feesLookup fees k = none) :
    ∀ key d, jsOrQ (feesLookup (fees.filter fun kv => kv.1 ≠ k) key) d =
      jsOrQ (feesLookup fees key) d := by
  intro key d
  by_cases hkey : key = k
  · subst hkey
    rw [feesLookup_filter_self]
    rcases h0 with h | h <;> simp [h, jsOrQ]
  · rw [feesLookup_filter_ne fees k key hkey]

theorem filter_other_erase (fees : List (String × ℚ)) (k : String)
    (hk : k = "registration" ∨ k = "chattel" ∨ k = "insurance") :
    ((fees.filter fun kv => kv.1 ≠ k).filter fun kv =>
        !(kv.1 = "registration" || kv.1 = "chattel" || kv.1 = "insurance")) =
      fees.filter fun kv =>
        !(kv.1 = "registration" || kv.1 = "chattel" || kv.1 = "insurance") := by
  induction fees with
  | nil => rfl
  | cons kv rest ih =>
      by_cases hkv : kv.1 = k
      · have h1 : (decide (kv.1 ≠ k)) = false := by simp [hkv]
        have hdrop : (!(decide (kv.1 = "registration") || decide (kv.1 = "chattel") ||
            decide (kv.1 = "insurance"))) = false := by
          rcases hk with h | h | h <;> simp [hkv, h]
        rw [List.filter_cons, h1, if_neg Bool.false_ne_true]
        conv_rhs => rw [List.filter_cons]
        rw [hdrop, if_neg Bool.false_ne_true]
        exact ih
      · have h1 : (decide (kv.1 ≠ k)) = true := by simp [hkv]
        rw [List.filter_cons, h1, if_pos rfl, List.filter_cons]
        conv_rhs => rw [List.filter_cons]
        by_cases hother : (!(decide (kv.1 = "registration") || decide (kv.1 = "chattel") ||
            decide (kv.1 = "insurance"))) = true
        · rw [if_pos hother, if_pos hother, ih]
        · rw [if_neg hother, if_neg hother, ih]

unseal Rat.add Rat.sub Rat.mul Rat.inv Rat.ofScientific in
/-- C10: a fee map entry holding 0 for `registration`, `chattel` or
`insurance` behaves exactly as if the entry were absent — the whole
pricing result is unchanged when the zero entry is deleted, so those
fees can never be exactly zero; concretely the seeded NCR rule stores
`insurance: 0` and the GLS A/T quote prices insurance at
1,198,000 × 0.025 = 29,950. -/
theorem c10_zero_fee_default (catalog : List CarModel) (input : PricingInput)
    (r : PriceRule) (k : String)
    (hk : k = "registration" ∨ k = "chattel" ∨ k = "insurance")
    (h0 : feesLookup r.fees k = some 0 ∨ feesLookup r.fees k = none) :
    calcWithRule catalog (some r) input =
      calcWithRule catalog
        (some ⟨r.region, r.fees.filter fun kv => kv.1 ≠ k, r.promos, r.updatedAt⟩)
        input ∧
    (calculatePrice seedCatalog seedRules ⟨2, none, none, none, none, none⟩).map
        (fun c => c.breakdown.fees.insurance) = some 29950 := by
  constructor
  · unfold calcWithRule
    cases hfv : findVariantById catalog input.variantId with
    | none => rfl
    | some p =>
        dsimp only [Option.map, Option.getD, Option.some_bind]
        rw [jsOr_lookup_erase r.fees k h0, jsOr_lookup_erase r.fees k h0,
          jsOr_lookup_erase r.fees k h0, filter_other_erase r.fees k hk]
  · decide

/-- Witness for C10: deleting the seeded `insurance: 0` entry leaves the
seeded GLS A/T quote unchanged. -/
theorem c10_zero_fee_default_witness :
    calcWithRule seedCatalog (some seedPriceRule) ⟨2, none, none, none, none, none⟩ =
      calcWithRule seedCatalog
        (some ⟨seedPriceRule.region,
          seedPriceRule.fees.filter fun kv => kv.1 ≠ "insurance",
          seedPriceRule.promos, seedPriceRule.updatedAt⟩)
        ⟨2, none, none, none, none, none⟩ :=
  (c10_zero_fee_default seedCatalog ⟨2, none, none, none, none, none⟩ seedPriceRule
    "insurance" (Or.inr (Or.inr rfl)) (Or.inl (by decide))).1

set_option maxRecDepth 4096 in
unseal Rat.add Rat.sub Rat.mul Rat.inv Rat.ofScientific in
/-- C1 counterexample: the one-word query "xpander" does not resolve to
Xpander's lowest-priced variant — the single-space split has one token,
so the token-split tier is skipped (it requires at least two), and the
fuzzy tier returns the first stored variant (SRP 1,198,000) although a
cheaper variant (SRP 1,068,000) exists. -/
theorem c1_counterexample :
    searchVariantByName c1Catalog "xpander" =
      some (⟨1, "GLS A/T", 1198000⟩, "Xpander") ∧
    (∃ p ∈ allVariants c1Catalog, p.1.srp < 1198000) ∧
    (jsSplitChar ' ' (jsToLower "xpander")).length = 1 := by
  refine ⟨by decide, ⟨(⟨2, "GLX M/T", 1068000⟩, "Xpander"), by decide, by decide⟩,
    by decide⟩

/-- C1 amended: the token-split tier requires at least two
space-separated tokens; when it applies — tier 1 failed, the first
token matches a model owning at least one variant, and no variant name
contains the remainder — `searchVariantByName` returns that model's
first stored variant, not its cheapest; one-token word lists always
skip the tier. -/
theorem c1_token_split_amended (catalog : List CarModel) (query : String)
    (m : CarModel) (v0 : CarVariant) (rest : List CarVariant)
    (h1 : searchTier1 catalog query = none)
    (hw : 2 ≤ (jsSplitChar ' ' (jsToLower query)).length)
    (hm : catalog.find? (fun mo => containsInsensitive mo.name
        ((jsSplitChar ' ' (jsToLower query)).headD "")) = some m)
    (hvar : m.variants = v0 :: rest)
    (hno : m.variants.find? (fun v => strIncludes (jsToLower v.name)
        (joinSpace ((jsSplitChar ' ' (jsToLower query)).drop 1))) = none) :
    searchVariantByName catalog query = some (v0, m.name) ∧
    (∀ ws : List String, ws.length < 2 → searchTier2 catalog ws = none) := by
  constructor
  · unfold searchVariantByName
    rw [h1]
    dsimp only
    have h2 : searchTier2 catalog (jsSplitChar ' ' (jsToLower query)) =
        some (v0, m.name) := by
      unfold searchTier2
      rw [if_pos hw, hm]
      dsimp only
      rw [hvar] at hno ⊢
      dsimp only
      rw [hno]
    rw [h2]
  · intro ws hws
    unfold searchTier2
    rw [if_neg (by omega)]

/-- Witness for C1's amended theorem: on the two-token query
"xpander zzz" the token-split tier fires and returns the first stored
(more expensive) Xpander variant. -/
theorem c1_token_split_amended_witness :
    searchVariantByName c1Catalog "xpander zzz" =
      some (⟨1, "GLS A/T", 1198000⟩, "Xpander") :=
  (c1_token_split_amended c1Catalog "xpander zzz"
    ⟨"Xpander", [⟨1, "GLS A/T", 1198000⟩, ⟨2, "GLX M/T", 1068000⟩]⟩
    ⟨1, "GLS A/T", 1198000⟩ [⟨2, "GLX M/T", 1068000⟩]
    (by decide) (by decide) (by decide) rfl (by decide)).1

theorem any_eq_false_of_find?_none {α : Type} {l : List (String × α)} {u : String}
    (h : l.find? (fun p => p.1 = u) = none) :
    (l.any fun p => p.1 = u) = false := by
  rw [List.any_eq_false]
  intro x hx
  exact List.find?_eq_none.mp h x hx

theorem map_replace_of_find?_none {α : Type} (l : List (String × α)) (u : String)
    (st : α) (h : l.find? (fun p => p.1 = u) = none) :
    (l.map fun p => if p.1 = u then (u, st) else p) = l := by
  induction l with
  | nil => rfl
  | cons a t ih =>
      have ha : ¬(a.1 = u) := by
        have := List.find?_eq_none.mp h a (List.mem_cons_self a t)
        simpa using this
      have ht : t.find? (fun p => p.1 = u) = none := by
        rw [List.find?_eq_none]
        intro x hx
        exact List.find?_eq_none.mp h x (List.mem_cons_of_mem a hx)
      simp only [List.map_cons, if_neg ha, ih ht]

theorem filter_ne_of_find?_none {α : Type} (l : List (String × α)) (u : String)
    (h : l.find? (fun p => p.1 = u) = none) :
    (l.filter fun p => p.1 ≠ u) = l := by
  rw [List.filter_eq_self]
  intro a ha
  have := List.find?_eq_none.mp h a ha
  simpa using this

theorem find?_of_filter_ne {α : Type} (l : List (String × α)) (u : String) :
    (l.filter fun p => p.1 ≠ u).find? (fun p => p.1 = u) = none := by
  rw [List.find?_eq_none]
  intro a ha
  have := List.of_mem_filter ha
  simp only [decide_not, Bool.not_eq_true', decide_eq_false_iff_not] at this
  simp [this]

/-- C3: from a sessionless user, a non-empty turn resolving a variant
with a nonzero id followed by a "cash" turn walks the step through
exactly IDLE → ASK_VARIANT → ASK_PAYMENT_TYPE → GENERATE_QUOTE → IDLE,
appends exactly one GENERATED quote holding the frozen pricing
snapshot, and deletes the session so the final state is IDLE with empty
context.  The non-empty-message and nonzero-id side conditions bound
the JS falsy guards (`if (variantQuery)`, `if (!variantId)`) away from
their degenerate cases. -/
theorem c3_variant_cash_flow (catalog : List CarModel) (rules : List PriceRule)
    (sessions0 : List (String × QuoteSessionState)) (quotes0 : List QuoteRecord)
    (user msg1 : String) (v : CarVariant) (mname : String) (w : CarVariant × String)
    (hs0 : sessions0.find? (fun p => p.1 = user) = none)
    (hres : searchVariantByName catalog msg1 = some (v, mname))
    (hnc : jsTrim (jsToLower msg1) ∉ (["cancel", "stop", "exit"] : List String))
    (hfind : findVariantById catalog v.id = some w)
    (hne : msg1 ≠ "") (hvid : v.id ≠ 0) :
    ∃ c, calculatePrice catalog rules ⟨v.id, some "NCR", none, none, none, none⟩ =
        some c ∧
      (processMessage ⟨catalog, rules, sessions0, quotes0⟩ user msg1).2.2 ++
        ((processMessage
            (processMessage ⟨catalog, rules, sessions0, quotes0⟩ user msg1).1
            user "cash").2.2).drop 1 =
        [.IDLE, .ASK_VARIANT, .ASK_PAYMENT_TYPE, .GENERATE_QUOTE, .IDLE] ∧
      (processMessage
          (processMessage ⟨catalog, rules, sessions0, quotes0⟩ user msg1).1
          user "cash").1 =
        ⟨catalog, rules, sessions0, quotes0 ++ [⟨user, v.id, c, "GENERATED"⟩]⟩ ∧
      getSession (processMessage
          (processMessage ⟨catalog, rules, sessions0, quotes0⟩ user msg1).1
          user "cash").1 user = ⟨.IDLE, emptyContext⟩ ∧
      (processMessage
          (processMessage ⟨catalog, rules, sessions0, quotes0⟩ user msg1).1
          user "cash").2.1 = ⟨.IDLE, emptyContext⟩ := by
  have hany0 := any_eq_false_of_find?_none hs0
  obtain ⟨calcV, hcalc⟩ : ∃ c, calculatePrice catalog rules
      ⟨v.id, some "NCR", none, none, none, none⟩ = some c := by
    unfold calculatePrice calcWithRule
    rw [hfind]
    exact ⟨_, rfl⟩
  have ht1 : processMessage ⟨catalog, rules, sessions0, quotes0⟩ user msg1 =
      (⟨catalog, rules,
          sessions0 ++ [(user, ⟨.ASK_PAYMENT_TYPE,
            ⟨some v.id, some (mname ++ " " ++ v.name), none, none, none, none⟩⟩)],
          quotes0⟩,
        ⟨.ASK_PAYMENT_TYPE,
          ⟨some v.id, some (mname ++ " " ++ v.name), none, none, none, none⟩⟩,
        [.IDLE, .ASK_VARIANT, .ASK_PAYMENT_TYPE]) := by
    unfold processMessage
    rw [show getSession ⟨catalog, rules, sessions0, quotes0⟩ user =
        ⟨.IDLE, emptyContext⟩ from by unfold getSession; rw [hs0]]
    rw [if_neg hnc]
    dsimp only
    unfold startQuoteFlow
    dsimp only
    rw [if_neg hne, hres]
    dsimp only
    unfold updateSession
    dsimp only
    simp only [hany0, Bool.false_eq_true, if_false]
    rfl
  rw [ht1]
  have hupd : updateSession
      ⟨catalog, rules,
        sessions0 ++ [(user, ⟨.ASK_PAYMENT_TYPE,
          ⟨some v.id, some (mname ++ " " ++ v.name), none, none, none, none⟩⟩)],
        quotes0⟩ user
      ⟨.GENERATE_QUOTE,
        ⟨some v.id, some (mname ++ " " ++ v.name), some "cash", none, none, none⟩⟩ =
      ⟨catalog, rules,
        sessions0 ++ [(user, ⟨.GENERATE_QUOTE,
          ⟨some v.id, some (mname ++ " " ++ v.name), some "cash", none, none, none⟩⟩)],
        quotes0⟩ := by
    unfold updateSession
    have hanytrue : ((sessions0 ++ [(user, (⟨.ASK_PAYMENT_TYPE,
        ⟨some v.id, some (mname ++ " " ++ v.name), none, none, none,
          none⟩⟩ : QuoteSessionState))]).any fun p => p.1 = user) = true := by
      rw [List.any_eq_true]
      exact ⟨(user, ⟨.ASK_PAYMENT_TYPE,
        ⟨some v.id, some (mname ++ " " ++ v.name), none, none, none, none⟩⟩),
        List.mem_append_right _ (List.mem_singleton.mpr rfl), by simp⟩
    rw [if_pos hanytrue, List.map_append,
      map_replace_of_find?_none sessions0 user _ hs0]
    simp
  have hgen : generateQuote
      ⟨catalog, rules,
        sessions0 ++ [(user, ⟨.GENERATE_QUOTE,
          ⟨some v.id, some (mname ++ " " ++ v.name), some "cash", none, none, none⟩⟩)],
        quotes0⟩ user
      ⟨.GENERATE_QUOTE,
        ⟨some v.id, some (mname ++ " " ++ v.name), some "cash", none, none, none⟩⟩ =
      (⟨catalog, rules, sessions0, quotes0 ++ [⟨user, v.id, calcV, "GENERATED"⟩]⟩,
        ⟨.IDLE, emptyContext⟩, [.IDLE]) := by
    unfold generateQuote
    dsimp only [jsOrS]
    rw [if_neg hvid, if_neg (by decide), if_neg (by decide)]
    rw [hcalc]
    unfold clearSession
    dsimp only
    rw [List.filter_append, filter_ne_of_find?_none sessions0 user hs0]
    simp
  have ht2 : processMessage
      ⟨catalog, rules,
        sessions0 ++ [(user, ⟨.ASK_PAYMENT_TYPE,
          ⟨some v.id, some (mname ++ " " ++ v.name), none, none, none, none⟩⟩)],
        quotes0⟩ user "cash" =
      (⟨catalog, rules, sessions0, quotes0 ++ [⟨user, v.id, calcV, "GENERATED"⟩]⟩,
        ⟨.IDLE, emptyContext⟩, [.ASK_PAYMENT_TYPE, .GENERATE_QUOTE, .IDLE]) := by
    unfold processMessage
    rw [show getSession
        ⟨catalog, rules,
          sessions0 ++ [(user, ⟨.ASK_PAYMENT_TYPE,
            ⟨some v.id, some (mname ++ " " ++ v.name), none, none, none, none⟩⟩)],
          quotes0⟩ user =
        ⟨.ASK_PAYMENT_TYPE,
          ⟨some v.id, some (mname ++ " " ++ v.name), none, none, none, none⟩⟩ from by
      unfold getSession
      rw [List.find?_append, hs0]
      simp]
    rw [if_neg (by decide)]
    dsimp only
    unfold handleAskPaymentType
    rw [if_pos (by decide)]
    dsimp only
    rw [hupd, hgen]
  rw [ht2]
  exact ⟨calcV, hcalc, rfl, rfl, by unfold getSession; rw [hs0], rfl⟩

set_option maxRecDepth 4096 in
/-- Witness for C3: the seeded catalog, user "u", first message
"Xpander GLS" and then "cash". -/
theorem c3_variant_cash_flow_witness :
    ∃ c, calculatePrice seedCatalog seedRules
        ⟨2, some "NCR", none, none, none, none⟩ = some c ∧
      (processMessage ⟨seedCatalog, seedRules, [], []⟩ "u" "Xpander GLS").2.2 ++
        ((processMessage
            (processMessage ⟨seedCatalog, seedRules, [], []⟩ "u" "Xpander GLS").1
            "u" "cash").2.2).drop 1 =
        [.IDLE, .ASK_VARIANT, .ASK_PAYMENT_TYPE, .GENERATE_QUOTE, .IDLE] ∧
      (processMessage
          (processMessage ⟨seedCatalog, seedRules, [], []⟩ "u" "Xpander GLS").1
          "u" "cash").1 =
        ⟨seedCatalog, seedRules, [], [] ++ [⟨"u", 2, c, "GENERATED"⟩]⟩ ∧
      getSession (processMessage
          (processMessage ⟨seedCatalog, seedRules, [], []⟩ "u" "Xpander GLS").1
          "u" "cash").1 "u" = ⟨.IDLE, emptyContext⟩ ∧
      (processMessage
          (processMessage ⟨seedCatalog, seedRules, [], []⟩ "u" "Xpander GLS").1
          "u" "cash").2.1 = ⟨.IDLE, emptyContext⟩ :=
  c3_variant_cash_flow seedCatalog seedRules [] [] "u" "Xpander GLS"
    ⟨2, "GLS A/T", 1198000⟩ "Xpander" (⟨2, "GLS A/T", 1198000⟩, "Xpander")
    rfl (by decide) (by decide) (by decide) (by decide) (by decide)

/-- C7: when the language-model call fails, times out or returns an
unparseable response, `detectIntent` returns exactly the deterministic
fallback, and that fallback is first-match-wins evaluation of the fixed
rule order greeting → models → specs → photos → quote → model-name →
unknown with the fixed confidences 0.9/0.85/0.85/0.85/0.85/0.6/0.5. -/
theorem c7_intent_fallback (message : String) :
    detectIntent .failed message = fallbackIntentDetection message ∧
    fallbackIntentDetection message = firstRuleHit intentRuleList (jsToLower message) := by
  refine ⟨rfl, ?_⟩
  unfold fallbackIntentDetection firstRuleHit intentRuleList boolRule modelNameRule
  by_cases h1 : greetingCond (jsToLower message) = true
  · simp [h1, firstRuleHit]
  · rw [Bool.not_eq_true] at h1
    by_cases h2 : modelsCond (jsToLower message) = true
    · simp [h1, h2, firstRuleHit]
    · rw [Bool.not_eq_true] at h2
      by_cases h3 : specsCond (jsToLower message) = true
      · simp [h1, h2, h3, firstRuleHit]
      · rw [Bool.not_eq_true] at h3
        by_cases h4 : photosCond (jsToLower message) = true
        · simp [h1, h2, h3, h4, firstRuleHit]
        · rw [Bool.not_eq_true] at h4
          by_cases h5 : quoteCond (jsToLower message) = true
          · simp [h1, h2, h3, h4, h5, firstRuleHit]
          · rw [Bool.not_eq_true] at h5
            cases hfind : knownModels.find? fun m =>
                strIncludes (jsToLower message) m with
            | some m => simp [h1, h2, h3, h4, h5, hfind, firstRuleHit]
            | none => simp [h1, h2, h3, h4, h5, hfind, firstRuleHit]

set_option maxRecDepth 4096 in
unseal Rat.add Rat.sub Rat.mul Rat.inv Rat.ofScientific in
/-- Witness for C4: instantiates the positive-score clause at the
concrete warranty store and query. -/
theorem c4_faq_retrieval_witness :
    0 < faqScore "warranty" faqWarranty :=
  (c4_faq_retrieval [faqOther, faqWarranty] "warranty" 3).1 faqWarranty (by decide)

/-- Witness for C7: instantiates the fallback equalities at "hello". -/
theorem c7_intent_fallback_witness :
    detectIntent .failed "hello" = fallbackIntentDetection "hello" ∧
    fallbackIntentDetection "hello" = firstRuleHit intentRuleList (jsToLower "hello") :=
  c7_intent_fallback "hello"

/-- Witness for C8's amended theorem at a concrete hostile input. -/
theorem c8_sanitize_amended_witness :
    (sanitizeInput "<script>javascript:alert(1)</script>").length ≤ 500 :=
  (c8_sanitize_amended "<script>javascript:alert(1)</script>").2
